import Mathlib

/-!
Verification of the dataset-publishing workflow core.

This file is a shallow embedding, in Lean 4, of the workflow-relevant logic of
the Dataset-publishing repository: the dataset status state machine
(`datasetService.ts` and the `publish` API route), the display-status
reconciliation (`dataset.utils.ts`), the file ingestion summaries
(`fileService.ts`) and the AI metadata suggestion client
(`metadataService.ts`).

Modelling conventions:
- database rows are explicit records; a Prisma `update` call is a function
  from the old row to the new row, with "field not mentioned in the update
  payload" modelled as the field being copied from the old row;
- JavaScript `undefined` for an optional argument or an absent object key is
  modelled as `Option.none`;
- fallible JavaScript code (functions that can `throw`) returns
  `Except String _`; a `try`/`catch` block is a `match` on that result;
- external capabilities (the Gemini model call, `JSON.parse`, the XLSX
  workbook reader) are parameters of the embedding, exactly as the spec
  treats them ("external collaborators");
- machine integers are `Nat` (all counts in the code are small non-negative
  integers; no arithmetic in the modelled code overflows or truncates).
-/

/-! ## Status vocabulary

The `METADATA_STATUS` constant object is referenced throughout the source
(`dataset.utils.ts`, `datasetService.ts`) but its defining module revision is
not among the source files; its values are fixed by `prisma/schema.prisma`
(`@default("NEEDS METADATA") // NEEDS METADATA, PENDING REVIEW, APPROVED,
REJECTED`) and by the `MetadataStatus` union in `types/metadata.types.ts`,
which both spell the stored values with spaces. -/

namespace METADATA_STATUS

def NEEDS_METADATA : String := "NEEDS METADATA"

def PENDING_REVIEW : String := "PENDING REVIEW"

def APPROVED : String := "APPROVED"

def REJECTED : String := "REJECTED"

end METADATA_STATUS

/-- The four canonical stored metadata statuses, as a list (for stating
"outside the canonical vocabulary"). -/
def canonicalMetadataStatuses : List String :=
  [METADATA_STATUS.NEEDS_METADATA, METADATA_STATUS.PENDING_REVIEW,
   METADATA_STATUS.APPROVED, METADATA_STATUS.REJECTED]

/-! ## JavaScript string primitives used throughout the services -/

/-- The ASCII whitespace characters of the JavaScript regex class and of
`String.prototype.trim`. -/
def jsWhitespaceChar (c : Char) : Bool :=
  c = ' ' || c = '\t' || c = '\n' || c = '\r' || c = '\x0b' || c = '\x0c'

/-- JavaScript `s.trim()` (restricted to ASCII whitespace). -/
def jsTrim (s : String) : String :=
  ((s.toList.dropWhile jsWhitespaceChar).reverse.dropWhile jsWhitespaceChar).reverse.asString

/-! ## Data model (`schema.prisma`, `types/metadata.types.ts`) -/

/-- `MetadataDraft` from `types/metadata.types.ts`: the user-edited metadata
value object. -/
structure MetadataDraft where
  title : String
  description : String
  tags : List String
  category : String
deriving Repr, DecidableEq

/-- `MetadataSuggestion` from `types/metadata.types.ts`, as consumed by
`datasetService.updateDatasetMetadata`: the AI-suggested metadata value
object. -/
structure MetadataSuggestion where
  title : String
  description : String
  tags : List String
  category : String
deriving Repr, DecidableEq

/-- The persisted `Dataset` row (`schema.prisma`), restricted to the fields
the workflow logic reads or writes.  `Option.none` models SQL `NULL`. -/
structure DatasetRow where
  metadataStatus : String
  reviewComment : Option String
  publishedAt : Option Nat
  metadataDraft : Option MetadataDraft
  metadataLanguage : String
  suggestedTitle : Option String
  suggestedDescription : Option String
  suggestedTags : List String
  suggestedCategory : Option String
  publicationStatus : String
deriving Repr, DecidableEq

/-! ## Dataset status state machine (`services/datasetService.ts`)

The four-state revision of the service (the one written against the
`NEEDS METADATA`/`PENDING REVIEW`/`APPROVED`/`REJECTED` vocabulary) is the
revision modelled here; the older publication-status revision is modelled
separately below where a claim refers to it. -/

/-- The requested-display-status to stored-metadata-status switch inside
`updateDatasetStatus`, including its `NEEDS METADATA` default for
unrecognised values. -/
def mapRequestedStatus (status : String) : String :=
  if status = "NEEDS_METADATA" then METADATA_STATUS.NEEDS_METADATA
  else if status = "PENDING_REVIEW" then METADATA_STATUS.PENDING_REVIEW
  else if status = "APPROVED" then METADATA_STATUS.APPROVED
  else if status = "REJECTED" then METADATA_STATUS.REJECTED
  else METADATA_STATUS.NEEDS_METADATA

/-- `updateDatasetStatus(id, status, reviewComment)` from
`services/datasetService.ts` (four-state revision): maps the requested
display status onto a stored metadata status and writes it; the
`reviewComment` column is written only when the argument was provided
(`reviewComment !== undefined`). -/
def updateDatasetStatus (row : DatasetRow) (status : String)
    (reviewComment : Option String) : DatasetRow :=
  let ms := mapRequestedStatus status
  match reviewComment with
  | some c => { row with metadataStatus := ms, reviewComment := some c }
  | none => { row with metadataStatus := ms }

/-- `saveMetadataDraft(id, draft, language)` from
`services/datasetService.ts` (four-state revision): overwrites the draft
wholesale, sets the stored status to `PENDING REVIEW`, and adds
`reviewComment: null` to the update payload only when the freshly-read
current status is `APPROVED`. -/
def saveMetadataDraft (row : DatasetRow) (draft : MetadataDraft)
    (language : String) : DatasetRow :=
  let base := { row with
    metadataDraft := some draft,
    metadataLanguage := language,
    metadataStatus := METADATA_STATUS.PENDING_REVIEW }
  if row.metadataStatus = METADATA_STATUS.APPROVED then
    { base with reviewComment := none }
  else
    base

/-- `updateDatasetMetadata(id, metadata, language)` from
`services/datasetService.ts` (four-state revision): stores the AI
suggestion fields and the language, and sets the stored status to
`NEEDS METADATA`. -/
def updateDatasetMetadata (row : DatasetRow) (metadata : MetadataSuggestion)
    (language : String) : DatasetRow :=
  { row with
    suggestedTitle := some metadata.title,
    suggestedDescription := some metadata.description,
    suggestedTags := metadata.tags,
    suggestedCategory := some metadata.category,
    metadataLanguage := language,
    metadataStatus := METADATA_STATUS.NEEDS_METADATA }

/-- The route-local `updateDatasetPublicationStatus(id, status, comment)`
from `app/api/datasets/[id]/publish/route.ts` (legacy publication-status
revision): writes `publicationStatus`, stamps `publishedAt` only for
`PUBLISHED`, and writes the comment only when provided.  `now` models
`new Date()`. -/
def updateDatasetPublicationStatus (row : DatasetRow) (status : String)
    (comment : Option String) (now : Nat) : DatasetRow :=
  let row1 := { row with publicationStatus := status }
  let row2 :=
    if status = "PUBLISHED" then { row1 with publishedAt := some now }
    else row1
  match comment with
  | some c => { row2 with reviewComment := some c }
  | none => row2

/-! ## The publish API route (`PUT /api/datasets/[id]/publish`)

Four-state revision: reads the dataset, 404s when absent, validates that the
requested status is one of the four display values, and otherwise calls
`updateDatasetStatus` unconditionally. -/

/-- The JSON body of the publish request; `none` models an absent key. -/
structure PublishRequestBody where
  status : Option String
  reviewComment : Option String
deriving Repr, DecidableEq

/-- Outcome of an API route call: `ok` carries the updated row that was
persisted and returned, `badRequest` is a createErrorResponse BAD_REQUEST
response (HTTP 400), `notFound` is HTTP 404. -/
inductive ApiResult where
  | ok (row : DatasetRow)
  | badRequest (msg : String)
  | notFound (msg : String)
deriving Repr, DecidableEq

/-- `PUT` handler of `app/api/datasets/[id]/publish/route.ts` (four-state
revision).  `current` is the freshly-read row (`getDatasetById`), `none`
meaning the dataset does not exist.  Note the only validation is a
membership test of the requested status value; the current status of the
row is never consulted. -/
def publishPUT (current : Option DatasetRow) (body : PublishRequestBody) :
    ApiResult :=
  match current with
  | none => .notFound "Dataset not found"
  | some row =>
    match body.status with
    | none => .badRequest "Invalid status"
    | some s =>
      if ["NEEDS_METADATA", "PENDING_REVIEW", "APPROVED", "REJECTED"].contains s then
        .ok (updateDatasetStatus row s body.reviewComment)
      else
        .badRequest "Invalid status"

/-- `handleReject` of `components/datasets/WorkflowControls.tsx`, reduced to
its client-side guard: the rejection request is dispatched to the API if
and only if the trimmed rejection reason is non-empty (`if
(!rejectReason.trim()) return;`).  Returns whether the request is sent. -/
def handleReject (rejectReason : String) : Bool :=
  !(jsTrim rejectReason == "")

/-! ## Display-status reconciliation (`utils/dataset.utils.ts`) -/

/-- A dataset record as seen by the display-status utilities.  The source
functions duck-type on key presence (the JavaScript in-operator applied to
the metadataStatus and hasMetadata keys), so each field is an `Option` whose `none`
means the key is absent from the record. -/
structure DatasetRecord where
  metadataStatus : Option String
  hasMetadata : Option Bool
  displayStatus : Option String
deriving Repr, DecidableEq

namespace DatasetUtils

/-- `hasMetadata(dataset)` from `utils/dataset.utils.ts`: a record carrying
a `metadataStatus` key has metadata whenever that status differs from
`NEEDS METADATA`; otherwise fall back to a carried `hasMetadata` flag;
otherwise `false`. -/
def hasMetadata (d : DatasetRecord) : Bool :=
  match d.metadataStatus with
  | some ms => ms != METADATA_STATUS.NEEDS_METADATA
  | none =>
    match d.hasMetadata with
    | some b => b
    | none => false

/-- `getDisplayStatus(dataset)` from `utils/dataset.utils.ts`: map the four
stored statuses onto display labels with a `NEEDS_METADATA` default for any
other value; records without a `metadataStatus` key approximate from the
`hasMetadata` flag. -/
def getDisplayStatus (d : DatasetRecord) : String :=
  match d.metadataStatus with
  | some ms =>
    if ms = METADATA_STATUS.NEEDS_METADATA then "NEEDS_METADATA"
    else if ms = METADATA_STATUS.PENDING_REVIEW then "PENDING_REVIEW"
    else if ms = METADATA_STATUS.APPROVED then "APPROVED"
    else if ms = METADATA_STATUS.REJECTED then "REJECTED"
    else "NEEDS_METADATA"
  | none =>
    match d.hasMetadata with
    | some b => if b then "PENDING_REVIEW" else "NEEDS_METADATA"
    | none => "NEEDS_METADATA"

/-- `enhanceDataset(dataset)` from `utils/dataset.utils.ts`: spread the
record and bolt on the two computed properties.  The input record itself is
never written to (the source builds a fresh object literal), which the
functional embedding renders by construction. -/
def enhanceDataset (d : DatasetRecord) : DatasetRecord :=
  { d with
    hasMetadata := some (hasMetadata d),
    displayStatus := some (getDisplayStatus d) }

end DatasetUtils

/-! ## File ingestion (`services/fileService.ts`) -/

/-- An uploaded file as the CSV parser sees it: its text content.  `size`
is the byte length; the model identifies bytes with characters (the parsed
fixtures are ASCII). -/
structure JsFile where
  content : String
deriving Repr, DecidableEq

/-- JavaScript `file.size`. -/
def JsFile.size (f : JsFile) : Nat := f.content.length

/-- `ProcessedFile` from `types/dataset.types.ts`: the structural summary
ingestion produces.  A sample row object is modelled as the list of its
key/value pairs in column order; a `none` value is the JSON `null` used to
pad short rows. -/
structure ProcessedFile where
  rowCount : Nat
  columnNames : List String
  sampleData : List (List (String × Option String))
  error : Option String
deriving Repr, DecidableEq

/-- The `replace(/^"|"$/g, '')` step: remove one leading and one trailing
double quote, if present. -/
def stripEdgeQuotesL (l : List Char) : List Char :=
  let l1 := match l with
    | '"' :: rest => rest
    | other => other
  match l1.reverse with
  | '"' :: rest => rest.reverse
  | _ => l1

/-- `stripEdgeQuotesL` on strings. -/
def stripEdgeQuotes (s : String) : String :=
  (stripEdgeQuotesL s.toList).asString

/-- The `replace(/""/g, '"')` step: collapse each doubled quote into one,
scanning left to right. -/
def collapseDoubleQuotes : List Char → List Char
  | '"' :: '"' :: rest => '"' :: collapseDoubleQuotes rest
  | c :: rest => c :: collapseDoubleQuotes rest
  | [] => []

/-- The `replace(/,$/g, '')` step: remove a trailing comma. -/
def dropTrailingComma (l : List Char) : List Char :=
  match l.reverse with
  | ',' :: rest => rest.reverse
  | _ => l

/-- Body of the quoted-field alternative `"([^"]|"")*"` of the
`parseCSVRowSimple` regex, after the opening quote: consume characters and
doubled-quote escapes up to the closing quote; returns the consumed body
and the remainder after the closing quote, or `none` when no closing quote
exists. -/
def scanQuoted : List Char → Option (List Char × List Char)
  | [] => none
  | '"' :: '"' :: rest =>
    match scanQuoted rest with
    | some (body, r) => some ('"' :: '"' :: body, r)
    | none => none
  | '"' :: rest => some ([], rest)
  | c :: rest =>
    match scanQuoted rest with
    | some (body, r) => some (c :: body, r)
    | none => none

/-- One match of the regex `("([^"]|"")*"|[^,]*)(,|$)` at the current
position: the quoted alternative is tried first and must be followed by a
comma or the end of input, otherwise the engine falls back to the
unquoted `[^,]*` run.  Returns the matched text (including a trailing
comma when one was consumed) and the remaining input. -/
def matchField (l : List Char) : List Char × List Char :=
  let quoted : Option (List Char × List Char) :=
    match l with
    | '"' :: after =>
      match scanQuoted after with
      | some (body, rest) =>
        match rest with
        | ',' :: r2 => some ('"' :: (body ++ ['"', ',']), r2)
        | [] => some ('"' :: (body ++ ['"']), [])
        | _ => none
      | none => none
    | _ => none
  match quoted with
  | some res => res
  | none =>
    let field := l.takeWhile (fun c => c ≠ ',')
    let rest := l.drop field.length
    match rest with
    | ',' :: r2 => (field ++ [','], r2)
    | _ => (field, rest)

/-- The `row.match(/("([^"]|"")*"|[^,]*)(,|$)/g)` loop: collect successive
matches; at the end of input the regex produces one final empty match
(after which the engine bumps past the end and stops).  Fuelled by the
input length: `matchField` consumes at least one character from a
non-empty input, so the fuel is never exhausted on the defining call. -/
def csvMatchAllGo : Nat → List Char → List (List Char)
  | 0, _ => []
  | _ + 1, [] => [[]]
  | fuel + 1, l =>
    let (m, rest) := matchField l
    m :: csvMatchAllGo fuel rest

/-- All matches of the field regex over a row. -/
def csvMatchAll (l : List Char) : List (List Char) :=
  csvMatchAllGo (l.length + 1) l

/-- `parseCSVRowSimple(row)` from `services/fileService.ts`: regex-match the
fields, then strip trailing commas, strip surrounding quotes, and collapse
doubled quotes. -/
def parseCSVRowSimple (row : String) : List String :=
  ((((csvMatchAll row.toList).map dropTrailingComma).map
      stripEdgeQuotesL).map collapseDoubleQuotes).map List.asString

/-- JavaScript `s.split(sep)` for a single-character separator: split on
every occurrence, keeping empty pieces (`"a,".split(',')` is
`["a", ""]`). -/
def splitOnChar (sep : Char) : List Char → List (List Char)
  | [] => [[]]
  | c :: cs =>
    if c = sep then [] :: splitOnChar sep cs
    else
      match splitOnChar sep cs with
      | [] => [[c]]
      | h :: t => (c :: h) :: t

/-- The row list `parseCSVEfficiently` works on: the first 100KB of the
file, split on newlines, trimmed, with empty lines dropped. -/
def csvRows (file : JsFile) : List String :=
  let chunkSize := 100 * 1024
  let chunk := file.content.toList.take (min chunkSize file.size)
  ((splitOnChar '\n' chunk).map (fun r => jsTrim r.asString)).filter
    (fun r => r.length > 0)

/-- `parseCSVEfficiently(file)` from `services/fileService.ts`
(bounded-prefix strategy): parse the header from the first line, build
sample objects from up to 10 data lines (padding short rows with `null`),
and report an estimated total row count obtained by dividing the file size
by the average observed line length (the JavaScript float division and
`Math.floor` are modelled by exact natural division). -/
def parseCSVEfficiently (file : JsFile) : ProcessedFile :=
  let rows := csvRows file
  if rows.length < 2 then
    { rowCount := 0, columnNames := [], sampleData := [],
      error := some "Not enough rows in CSV file" }
  else
    let headerRow := rows.headD ""
    let columnNames := (splitOnChar ',' headerRow.toList).map
      (fun h => stripEdgeQuotes (jsTrim h.asString))
    if columnNames.length = 0 then
      { rowCount := 0, columnNames := [], sampleData := [],
        error := some "No columns found in CSV header" }
    else
      let sampleData := ((rows.drop 1).take 10).map (fun row =>
        let fields := parseCSVRowSimple row
        columnNames.enum.map (fun p => (p.2, fields.get? p.1)))
      let dataRows := rows.drop 1
      let sumLen := (dataRows.map String.length).sum
      let estimatedRows := max (file.size * dataRows.length / sumLen) dataRows.length
      { rowCount := estimatedRows, columnNames := columnNames,
        sampleData := sampleData, error := none }

/-- A parsed XLSX workbook, as handed over by the external XLSX library: a
list of sheets, each a list of rows of cells; a `none` cell is blank. -/
structure Workbook where
  sheets : List (List (List (Option String)))
deriving Repr, DecidableEq

/-- A row all of whose cells are blank (dropped by `blankrows: false`). -/
def rowIsBlank (row : List (Option String)) : Bool :=
  row.all Option.isNone

/-- `parseExcel(file)` from `services/fileService.ts`: take the first
sheet, row 0 as header, `range.e.r` (the number of rows after the header)
as the row count, and up to 10 of the rows `1 .. min(11, rowCount)` as
sample objects keyed by the trimmed column names with `defval: null`. -/
def parseExcel (wb : Workbook) : ProcessedFile :=
  match wb.sheets.head? with
  | none =>
    { rowCount := 0, columnNames := [], sampleData := [],
      error := some "File contains no data sheets" }
  | some sheet =>
    match sheet.head? with
    | none =>
      { rowCount := 0, columnNames := [], sampleData := [],
        error := some "File has no headers" }
    | some headers =>
      if headers.length = 0 then
        { rowCount := 0, columnNames := [], sampleData := [],
          error := some "File has no headers" }
      else
        let columnNames := headers.map (fun h => jsTrim (h.getD ""))
        let rowCount := sheet.length - 1
        if rowCount = 0 then
          { rowCount := 0, columnNames := columnNames, sampleData := [],
            error := some "File contains headers but no data rows" }
        else
          let sampleRows := ((sheet.drop 1).take (min 11 rowCount)).filter
            (fun r => !rowIsBlank r)
          let sampleData := sampleRows.map (fun r =>
            columnNames.enum.map (fun p => (p.2, (r.get? p.1).join)))
          { rowCount := rowCount, columnNames := columnNames,
            sampleData := sampleData.take 10, error := none }

/-! ## Metadata suggestion client (`services/metadataService.ts`)

The Gemini call and `JSON.parse` are the external capabilities of this
module: the model call is a parameter `model : String → Except String
String` (prompt in, text out or a thrown error), and `JSON.parse` on the
cleaned text is a parameter `jsonParse : String → Option JsonVal`
(`none` models a thrown `SyntaxError`).  Every theorem below holds for all
instantiations of both. -/

/-- A JavaScript JSON value (numbers restricted to integers; none of the
modelled logic computes with numbers). -/
inductive JsonVal where
  | null
  | bool (b : Bool)
  | num (n : Int)
  | str (s : String)
  | arr (elems : List JsonVal)
  | obj (fields : List (String × JsonVal))

/-- JavaScript truthiness of a defined value. -/
def truthy : JsonVal → Bool
  | .null => false
  | .bool b => b
  | .num n => n != 0
  | .str s => s != ""
  | .arr _ => true
  | .obj _ => true

/-- JavaScript `x || dflt` where `x : Option JsonVal` is a possibly
`undefined` value. -/
def jsOr (v : Option JsonVal) (dflt : JsonVal) : JsonVal :=
  match v with
  | some x => if truthy x then x else dflt
  | none => dflt

/-- Property access `v[key]` on a value known not to be `null`:
`undefined` (`none`) except for a matching object member. -/
def jsProp (v : JsonVal) (key : String) : Option JsonVal :=
  match v with
  | .obj fields => (fields.find? (fun p => p.1 == key)).map (fun p => p.2)
  | _ => none

/-- Property access `v[key]` in full: accessing a member of `null` throws a
`TypeError`. -/
def jsGet (v : JsonVal) (key : String) : Except String (Option JsonVal) :=
  match v with
  | .null => .error "TypeError: cannot read properties of null"
  | other => .ok (jsProp other key)

mutual

/-- JavaScript `String(v)` for a defined value. -/
def jsToString : JsonVal → String
  | .null => "null"
  | .bool b => if b then "true" else "false"
  | .num n => toString n
  | .str s => s
  | .arr xs => String.intercalate "," (jsToStringList xs)
  | .obj _ => "[object Object]"

/-- Elementwise `String(v)` inside an array, where a `null` element renders
as the empty string (JavaScript `Array.prototype.toString`). -/
def jsToStringList : List JsonVal → List String
  | [] => []
  | .null :: xs => "" :: jsToStringList xs
  | x :: xs => jsToString x :: jsToStringList xs

end

/-- The suggestion record `generateMetadata` resolves to.  The TypeScript
return type promises four string/array fields, but the untyped JavaScript
path `metadata.title || ''` can propagate any truthy JSON value, so the
fields are modelled as JSON values; the structure itself fixes "exactly
the keys title/description/tags/category". -/
structure GeneratedSuggestion where
  title : JsonVal
  description : JsonVal
  tags : List JsonVal
  category : JsonVal

/-- The zero-value suggestion returned on any uncaught failure. -/
def emptySuggestion : GeneratedSuggestion :=
  { title := .str "", description := .str "", tags := [], category := .str "" }

/-- The sample-selection step of `generateMetadata`: when data is non-empty,
the first row has typeof object, and it has at least one key, the first 10
rows are selected; `typeof null` is also object and `Object.keys(null)`
throws, so a leading JSON `null` row aborts with a `TypeError`. -/
def buildSample (data : List JsonVal) : Except String (List JsonVal) :=
  match data with
  | [] => .ok []
  | d0 :: _ =>
    match d0 with
    | .null => .error "TypeError: Object.keys of null"
    | .obj fields => .ok (if fields.length > 0 then data.take 10 else [])
    | .arr elems => .ok (if elems.length > 0 then data.take 10 else [])
    | _ => .ok []

/-- Rendering of one cell `row[col]` in the preview table: `undefined` and
`null` become the literal token `null`, strings pass through, anything else
goes through `String(...)`; the property access itself can throw when the
row is `null`. -/
def previewCell (row : JsonVal) (col : String) : Except String String :=
  match jsGet row col with
  | .error e => .error e
  | .ok v =>
    .ok (match v with
      | none => "null"
      | some .null => "null"
      | some (.str s) => s
      | some other => jsToString other)

/-- One data line of the markdown-style preview table. -/
def previewRow (columnNames : List String) (row : JsonVal) :
    Except String String :=
  match columnNames.mapM (previewCell row) with
  | .error e => .error e
  | .ok vals => .ok ("| " ++ String.intercalate " | " vals ++ " |\n")

/-- The `dataPreview` string of `generateMetadata`: the column list, then
either a markdown table of the sample rows or the no-sample notice. -/
def buildPreview (sample : List JsonVal) (columnNames : List String) :
    Except String String :=
  let colPart :=
    if columnNames.length > 0 then
      "Columns: " ++ String.intercalate ", " columnNames ++ "\n\n"
    else ""
  if sample.length > 0 then
    let headerLine := "| " ++ String.intercalate " | " columnNames ++ " |\n"
    let sepLine :=
      "| " ++ String.intercalate " | " (columnNames.map (fun _ => "---")) ++ " |\n"
    match sample.mapM (previewRow columnNames) with
    | .error e => .error e
    | .ok lines =>
      .ok (colPart ++ "Sample data:\n\n" ++ headerLine ++ sepLine ++
        String.join lines)
  else
    .ok (colPart ++ "No sample data available.\n")

/-- `createEnglishPrompt(dataPreview)` from `services/metadataService.ts`. -/
def createEnglishPrompt (dataPreview : String) : String :=
  "You are an expert data analyst tasked with creating metadata for a dataset. \n" ++
  "Analyze the following dataset preview carefully:\n\n" ++
  dataPreview ++
  "\n\nBased on the dataset preview above, please generate the following:\n" ++
  "1. A concise, descriptive title (1 line)\n" ++
  "2. A detailed description (2-3 paragraphs) explaining what this dataset contains, its structure, and potential use cases\n" ++
  "3. 3-5 relevant tags or keywords\n" ++
  "4. A category that best fits this data\n\n" ++
  "Ensure your description accurately reflects the actual data in the preview. If there are any issues with the data (such as missing values, formatting issues), mention them in the description.\n\n" ++
  "Format your response as JSON with keys: title, description, tags, category"

/-- `createArabicPrompt(dataPreview)` from `services/metadataService.ts`
(the Arabic instruction text around the same preview). -/
def createArabicPrompt (dataPreview : String) : String :=
  "أنت محلل بيانات خبير مكلف بإنشاء بيانات وصفية لمجموعة بيانات.\n" ++
  "قم بتحليل معاينة مجموعة البيانات التالية بعناية:\n\n" ++
  dataPreview ++
  "\n\nبناءً على معاينة مجموعة البيانات أعلاه، يرجى إنشاء ما يلي:\n" ++
  "1. عنوان موجز ووصفي (سطر واحد)\n" ++
  "2. وصف مفصل (2-3 فقرات) يشرح محتوى مجموعة البيانات هذه وهيكلها وحالات الاستخدام المحتملة\n" ++
  "3. 3-5 علامات أو كلمات مفتاحية ذات صلة\n" ++
  "4. الفئة التي تناسب هذه البيانات بشكل أفضل\n\n" ++
  "تأكد من أن وصفك يعكس البيانات الفعلية في المعاينة بدقة. إذا كانت هناك أي مشكلات في البيانات (مثل القيم المفقودة أو مشكلات التنسيق)، اذكرها في الوصف.\n\n" ++
  "قم بتنسيق إجابتك بتنسيق JSON مع المفاتيح: title، description، tags، category"

/-- `text.replace(/```json|```/g, '')`: at each position remove a
` ```json ` token, else a ` ``` ` token, else keep the character. -/
def stripFences (l : List Char) : List Char :=
  match l with
  | [] => []
  | c :: cs =>
    if ("```json".toList).isPrefixOf (c :: cs) then
      stripFences ((c :: cs).drop 7)
    else if ("```".toList).isPrefixOf (c :: cs) then
      stripFences ((c :: cs).drop 3)
    else
      c :: stripFences cs
termination_by l.length
decreasing_by
  · simp [List.length_drop]; omega
  · simp [List.length_drop]; omega
  · simp

/-- The separator class `[:\s]` of the fallback extraction regexes. -/
def isSepChar (c : Char) : Bool :=
  c = ':' || jsWhitespaceChar c

/-- The tail `[:\s]+([^\n]+)` of the fallback extraction regexes, applied
right after the literal keyword: greedily consume the separator run, then
capture the following non-newline run; when the separator run reaches the
end of input the engine backtracks, giving separator characters back one by
one until a non-newline capture is possible.  Returns the capture and the
remaining input after it. -/
def capAfterSep (l : List Char) : Option (List Char × List Char) :=
  let m := l.takeWhile isSepChar
  let rest := l.drop m.length
  if m.length = 0 then none
  else
    match rest with
    | [] =>
      match ((List.range m.length).reverse).find?
          (fun k => decide (1 ≤ k) && (m.getD k ' ' != '\n')) with
      | some k =>
        let cap := (m.drop k).takeWhile (fun c => c ≠ '\n')
        some (cap, m.drop (k + cap.length))
      | none => none
    | _ :: _ =>
      let cap := rest.takeWhile (fun c => c ≠ '\n')
      some (cap, rest.drop cap.length)

/-- First match of `lit[:\s]+([^\n]+)` (case-insensitive literal), scanning
start positions left to right as the regex engine does. -/
def reFindCap (lit : List Char) (l : List Char) : Option (List Char × List Char) :=
  match l with
  | [] => none
  | _ :: tl =>
    if (l.take lit.length).map Char.toLower = lit then
      match capAfterSep (l.drop lit.length) with
      | some res => some res
      | none => reFindCap lit tl
    else
      reFindCap lit tl

/-- The `(\n[^\n]+)*` continuation of the description regex: greedily
append further non-empty lines. -/
def moreLines (l : List Char) : List Char :=
  match l with
  | '\n' :: rest =>
    let line := rest.takeWhile (fun c => c ≠ '\n')
    if line.isEmpty then []
    else '\n' :: (line ++ moreLines (rest.drop line.length))
  | _ => []
termination_by l.length
decreasing_by
  simp [List.length_drop]; omega

/-- `extractMetadataFromText(text)` from `services/metadataService.ts`: the
regex fallback applied to the raw model text; every field is optional and
defaults to the empty string or empty list; tags are split on commas and
semicolons, trimmed, and empty entries dropped. -/
def extractMetadataFromText (text : String) : GeneratedSuggestion :=
  let l := text.toList
  let title :=
    match reFindCap "title".toList l with
    | some (cap, _) => JsonVal.str (jsTrim cap.asString)
    | none => JsonVal.str ""
  let description :=
    match reFindCap "description".toList l with
    | some (cap, rest) => JsonVal.str (jsTrim (cap ++ moreLines rest).asString)
    | none => JsonVal.str ""
  let tags :=
    match reFindCap "tags".toList l with
    | some (cap, _) =>
      (((cap.splitOnP (fun c => c = ',' || c = ';')).map
          (fun t => jsTrim t.asString)).filter (fun t => t ≠ "")).map JsonVal.str
    | none => []
  let category :=
    match reFindCap "category".toList l with
    | some (cap, _) => JsonVal.str (jsTrim cap.asString)
    | none => JsonVal.str ""
  { title := title, description := description, tags := tags, category := category }

/-- The body of the outer `try` of `generateMetadata`: build the sample and
the preview (either step can throw a `TypeError` on a `null` row), call the
model, then run the inner `try`: clean code fences, `JSON.parse`, and read
the four keys.  A parse failure — and equally a parse result of JSON
`null`, whose member access throws inside the same inner `try` — falls back
to `extractMetadataFromText`; a present parse result yields the four keys
with falsy fields defaulted and non-array tags coerced to the empty
list. -/
def generateMetadataCore (data : List JsonVal) (columnNames : List String)
    (language : String) (model : String → Except String String)
    (jsonParse : String → Option JsonVal) : Except String GeneratedSuggestion :=
  match buildSample data with
  | .error e => .error e
  | .ok sample =>
    match buildPreview sample columnNames with
    | .error e => .error e
    | .ok dataPreview =>
      let prompt :=
        if language = "ar" then createArabicPrompt dataPreview
        else createEnglishPrompt dataPreview
      match model prompt with
      | .error e => .error e
      | .ok text =>
        let cleanedJson := jsTrim (stripFences text.toList).asString
        match jsonParse cleanedJson with
        | none => .ok (extractMetadataFromText text)
        | some .null => .ok (extractMetadataFromText text)
        | some metadata =>
          .ok { title := jsOr (jsProp metadata "title") (.str ""),
                description := jsOr (jsProp metadata "description") (.str ""),
                tags :=
                  (match jsProp metadata "tags" with
                  | some (.arr xs) => xs
                  | _ => []),
                category := jsOr (jsProp metadata "category") (.str "") }

/-- `generateMetadata(data, columnNames, language)` from
`services/metadataService.ts`: the core wrapped in the outer
`try`/`catch`, which resolves any thrown error to the zero-value
suggestion. -/
def generateMetadata (data : List JsonVal) (columnNames : List String)
    (language : String) (model : String → Except String String)
    (jsonParse : String → Option JsonVal) : Except String GeneratedSuggestion :=
  match generateMetadataCore data columnNames language model jsonParse with
  | .ok s => .ok s
  | .error _ => .ok emptySuggestion

/-! ## Concrete fixtures used by claim theorems -/

def sampleDraft : MetadataDraft :=
  { title := "Sales Data", description := "d", tags := ["sales"], category := "finance" }

def sampleSuggestion : MetadataSuggestion :=
  { title := "Sales Data", description := "d", tags := ["sales"], category := "finance" }

def baseRow : DatasetRow :=
  { metadataStatus := METADATA_STATUS.NEEDS_METADATA, reviewComment := none,
    publishedAt := none, metadataDraft := none, metadataLanguage := "en",
    suggestedTitle := none, suggestedDescription := none, suggestedTags := [],
    suggestedCategory := none, publicationStatus := "DRAFT" }

def pendingRow : DatasetRow :=
  { baseRow with metadataStatus := METADATA_STATUS.PENDING_REVIEW }

def rejectedRowWithComment : DatasetRow :=
  { baseRow with
    metadataStatus := METADATA_STATUS.REJECTED,
    reviewComment := some "fix title" }

def approvedRowWithComment : DatasetRow :=
  { baseRow with
    metadataStatus := METADATA_STATUS.APPROVED,
    reviewComment := some "nice work" }

/-- C1 counterexample: the claim says that invoking approve on a dataset whose
current status is not PENDING_REVIEW is a 400 INVALID_TRANSITION validation
error that leaves the persisted status unchanged; in the code, approving a
NEEDS METADATA dataset succeeds and overwrites the persisted status with
APPROVED. -/
theorem C1_counterexample :
    publishPUT (some baseRow) { status := some "APPROVED", reviewComment := none } =
      ApiResult.ok { baseRow with metadataStatus := METADATA_STATUS.APPROVED } ∧
    METADATA_STATUS.APPROVED ≠ baseRow.metadataStatus := by
  constructor
  · rfl
  · decide

/-- C1 (amended): the publish route performs no transition check at all: for
every existing dataset and every requested status among the four display
values, the PUT succeeds (200) and unconditionally overwrites the persisted
status with the mapped requested status, regardless of the freshly-read
current status; only a missing or unrecognised status value is refused. -/
theorem C1_amended_no_transition_check (row : DatasetRow)
    (body : PublishRequestBody) (s : String)
    (hs : body.status = some s)
    (hmem : s = "NEEDS_METADATA" ∨ s = "PENDING_REVIEW" ∨ s = "APPROVED" ∨ s = "REJECTED") :
    publishPUT (some row) body = ApiResult.ok (updateDatasetStatus row s body.reviewComment) ∧
    (updateDatasetStatus row s body.reviewComment).metadataStatus = mapRequestedStatus s := by
  obtain ⟨st, rc⟩ := body
  cases hs
  constructor
  · rcases hmem with h | h | h | h <;> subst h <;> rfl
  · cases rc <;> rfl

/-- Witness for C1: the amended theorem applied at a concrete NEEDS METADATA
row and an APPROVED request. -/
theorem C1_witness :
    publishPUT (some baseRow) { status := some "APPROVED", reviewComment := none } =
      ApiResult.ok (updateDatasetStatus baseRow "APPROVED" none) ∧
    (updateDatasetStatus baseRow "APPROVED" none).metadataStatus = mapRequestedStatus "APPROVED" :=
  C1_amended_no_transition_check baseRow { status := some "APPROVED", reviewComment := none }
    "APPROVED" rfl (Or.inr (Or.inr (Or.inl rfl)))

/-- C2 counterexample: the claim says rejecting a PENDING_REVIEW dataset
without a review comment is refused with a 400 validation error and does not
change the dataset; in the code the request succeeds and persists
REJECTED. -/
theorem C2_counterexample :
    publishPUT (some pendingRow) { status := some "REJECTED", reviewComment := none } =
      ApiResult.ok { pendingRow with metadataStatus := METADATA_STATUS.REJECTED } := by
  decide

/-- C2 (amended): the server applies no comment requirement: rejecting with a
comment transitions to REJECTED and persists the comment verbatim; rejecting
without a comment also succeeds, transitions to REJECTED, and leaves the
stored comment untouched.  The only comment guard is client-side:
WorkflowControls.handleReject dispatches the request exactly when the trimmed
reason is non-empty. -/
theorem C2_amended_reject_comment (row : DatasetRow) (c reason : String) :
    publishPUT (some row) { status := some "REJECTED", reviewComment := some c } =
      ApiResult.ok { row with metadataStatus := METADATA_STATUS.REJECTED, reviewComment := some c } ∧
    publishPUT (some row) { status := some "REJECTED", reviewComment := none } =
      ApiResult.ok { row with metadataStatus := METADATA_STATUS.REJECTED } ∧
    (handleReject reason = true ↔ jsTrim reason ≠ "") := by
  refine ⟨rfl, rfl, ?_⟩
  simp [handleReject]

/-- Witness for C2: the amended theorem applied at a concrete PENDING REVIEW
row with the comment given verbatim. -/
theorem C2_witness :
    publishPUT (some pendingRow) { status := some "REJECTED", reviewComment := some "bad data" } =
      ApiResult.ok { pendingRow with
        metadataStatus := METADATA_STATUS.REJECTED,
        reviewComment := some "bad data" } :=
  (C2_amended_reject_comment pendingRow "bad data" "x").1

/-- C3 (code bug, evaluated at the failing input): saving a draft always ends
in PENDING REVIEW and overwrites the draft wholesale, and clears
reviewComment when resubmitting from APPROVED; but resubmitting from REJECTED
leaves the stale rejection comment in place, although the code comment above
the condition announces a reset for rejected or approved and the spec
requires clearing on the REJECTED path. -/
theorem C3_stale_feedback_bug :
    (∀ row draft lang, (saveMetadataDraft row draft lang).metadataStatus = METADATA_STATUS.PENDING_REVIEW) ∧
    (saveMetadataDraft rejectedRowWithComment sampleDraft "en").metadataDraft = some sampleDraft ∧
    (saveMetadataDraft rejectedRowWithComment sampleDraft "en").reviewComment = some "fix title" ∧
    (saveMetadataDraft approvedRowWithComment sampleDraft "en").reviewComment = none := by
  refine ⟨?_, by decide, by decide, by decide⟩
  intro row draft lang
  by_cases h : row.metadataStatus = METADATA_STATUS.APPROVED <;> simp [saveMetadataDraft, h]

/-- C4 counterexample: the claim says suggestion generation leaves the
lifecycle status unchanged for every dataset; in the code, generating for a
PENDING REVIEW dataset changes its stored status (resetting it to NEEDS
METADATA). -/
theorem C4_counterexample :
    (updateDatasetMetadata pendingRow sampleSuggestion "en").metadataStatus ≠
      pendingRow.metadataStatus := by
  decide

/-- C4 (amended): suggestion generation overwrites the suggested fields and
the language, leaves the draft, review comment and publishedAt untouched, and
unconditionally resets the stored status to NEEDS METADATA - so the status is
unchanged exactly when it already was NEEDS METADATA, and generation never
advances the status past NEEDS METADATA. -/
theorem C4_amended_generation_resets_status (row : DatasetRow) (m : MetadataSuggestion)
    (lang : String) :
    updateDatasetMetadata row m lang =
      { row with
        suggestedTitle := some m.title,
        suggestedDescription := some m.description,
        suggestedTags := m.tags,
        suggestedCategory := some m.category,
        metadataLanguage := lang,
        metadataStatus := METADATA_STATUS.NEEDS_METADATA } ∧
    (updateDatasetMetadata row m lang).reviewComment = row.reviewComment ∧
    (updateDatasetMetadata row m lang).publishedAt = row.publishedAt ∧
    (updateDatasetMetadata row m lang).metadataDraft = row.metadataDraft ∧
    ((updateDatasetMetadata row m lang).metadataStatus = row.metadataStatus ↔
      row.metadataStatus = METADATA_STATUS.NEEDS_METADATA) := by
  refine ⟨rfl, rfl, rfl, rfl, ?_⟩
  simp [updateDatasetMetadata, eq_comm]

/-- Witness for C4: the amended theorem applied at a concrete NEEDS METADATA
row, where the status is indeed unchanged. -/
theorem C4_witness :
    (updateDatasetMetadata baseRow sampleSuggestion "en").metadataStatus =
      baseRow.metadataStatus :=
  ((C4_amended_generation_resets_status baseRow sampleSuggestion "en").2.2.2.2).mpr (by decide)

/-- C5 counterexample: the claim says approval from PENDING_REVIEW sets
publishedAt to the current time; approving through the four-state publish
route succeeds but leaves publishedAt untouched (still null). -/
theorem C5_counterexample :
    publishPUT (some pendingRow) { status := some "APPROVED", reviewComment := some "looks good" } =
      ApiResult.ok { pendingRow with
        metadataStatus := METADATA_STATUS.APPROVED,
        reviewComment := some "looks good" } ∧
    ({ pendingRow with
        metadataStatus := METADATA_STATUS.APPROVED,
        reviewComment := some "looks good" } : DatasetRow).publishedAt = none := by
  decide

/-- C5 (amended): approval via the four-state service sets the stored status
to APPROVED and sets reviewComment to the provided comment, or leaves it
as-is when none is given, but never touches publishedAt; publishedAt is
stamped only by the legacy publication-status path when PUBLISHED is
requested. -/
theorem C5_amended_approval_effects (row : DatasetRow) (c : String) (now : Nat) :
    (updateDatasetStatus row "APPROVED" (some c)).metadataStatus = METADATA_STATUS.APPROVED ∧
    (updateDatasetStatus row "APPROVED" (some c)).reviewComment = some c ∧
    (updateDatasetStatus row "APPROVED" none).metadataStatus = METADATA_STATUS.APPROVED ∧
    (updateDatasetStatus row "APPROVED" none).reviewComment = row.reviewComment ∧
    (updateDatasetStatus row "APPROVED" (some c)).publishedAt = row.publishedAt ∧
    (updateDatasetStatus row "APPROVED" none).publishedAt = row.publishedAt ∧
    (updateDatasetPublicationStatus row "PUBLISHED" (some c) now).publishedAt = some now ∧
    (updateDatasetPublicationStatus row "PUBLISHED" (some c) now).reviewComment = some c :=
  ⟨rfl, rfl, rfl, rfl, rfl, rfl, rfl, rfl⟩

/-- Witness for C5: the amended theorem applied at a concrete row; the legacy
PUBLISHED path stamps the supplied clock value. -/
theorem C5_witness :
    (updateDatasetPublicationStatus pendingRow "PUBLISHED" (some "ship it") 5).publishedAt =
      some 5 :=
  (C5_amended_approval_effects pendingRow "ship it" 5).2.2.2.2.2.2.1

/-- C6: getDisplayStatus is a pure idempotent derivation: applied to a record
enhanced with its own computed properties it returns the same label as on the
original record; enhancement leaves the underlying fields unchanged (and the
functional embedding renders the absence of mutation by construction);
records lacking a metadataStatus key map from the hasMetadata flag (true to
PENDING_REVIEW, false to NEEDS_METADATA); each canonical stored status passes
through to its display label; and a legacy value such as GENERATED maps onto
NEEDS_METADATA. -/
theorem C6_display_status_idempotent (d : DatasetRecord) (b : Bool) :
    DatasetUtils.getDisplayStatus (DatasetUtils.enhanceDataset d) =
      DatasetUtils.getDisplayStatus d ∧
    (DatasetUtils.enhanceDataset d).metadataStatus = d.metadataStatus ∧
    DatasetUtils.getDisplayStatus ⟨none, some b, none⟩ =
      (if b then "PENDING_REVIEW" else "NEEDS_METADATA") ∧
    DatasetUtils.getDisplayStatus ⟨some METADATA_STATUS.NEEDS_METADATA, none, none⟩ = "NEEDS_METADATA" ∧
    DatasetUtils.getDisplayStatus ⟨some METADATA_STATUS.PENDING_REVIEW, none, none⟩ = "PENDING_REVIEW" ∧
    DatasetUtils.getDisplayStatus ⟨some METADATA_STATUS.APPROVED, none, none⟩ = "APPROVED" ∧
    DatasetUtils.getDisplayStatus ⟨some METADATA_STATUS.REJECTED, none, none⟩ = "REJECTED" ∧
    DatasetUtils.getDisplayStatus ⟨some "GENERATED", none, none⟩ = "NEEDS_METADATA" := by
  refine ⟨?_, rfl, rfl, by decide, by decide, by decide, by decide, by decide⟩
  obtain ⟨ms, hm, ds⟩ := d
  cases ms <;> cases hm <;> rfl

/-- Witness for C6: idempotence at a concrete legacy GENERATED record. -/
theorem C6_witness :
    DatasetUtils.getDisplayStatus (DatasetUtils.enhanceDataset ⟨some "GENERATED", none, none⟩) =
      DatasetUtils.getDisplayStatus ⟨some "GENERATED", none, none⟩ :=
  (C6_display_status_idempotent ⟨some "GENERATED", none, none⟩ true).1

/-- C10: for every record whose metadataStatus is outside the four canonical
values (for example the legacy GENERATED or EDITED), hasMetadata computes
true while getDisplayStatus computes NEEDS_METADATA, so enhanceDataset
produces a record with hasMetadata = true and displayStatus = NEEDS_METADATA
simultaneously - the hasMetadata-true to PENDING_REVIEW approximation fails
for such records. -/
theorem C10_legacy_status_mismatch (d : DatasetRecord) (s : String)
    (h1 : s ≠ METADATA_STATUS.NEEDS_METADATA)
    (h2 : s ≠ METADATA_STATUS.PENDING_REVIEW)
    (h3 : s ≠ METADATA_STATUS.APPROVED)
    (h4 : s ≠ METADATA_STATUS.REJECTED) :
    (DatasetUtils.enhanceDataset { d with metadataStatus := some s }).hasMetadata = some true ∧
    (DatasetUtils.enhanceDataset { d with metadataStatus := some s }).displayStatus =
      some "NEEDS_METADATA" := by
  constructor
  · simp [DatasetUtils.enhanceDataset, DatasetUtils.hasMetadata, bne_iff_ne, h1]
  · simp [DatasetUtils.enhanceDataset, DatasetUtils.getDisplayStatus, h1, h2, h3, h4]

/-- Witness for C10: the theorem applied at the concrete legacy value
GENERATED. -/
theorem C10_witness :
    (DatasetUtils.enhanceDataset ⟨some "GENERATED", none, none⟩).hasMetadata = some true ∧
    (DatasetUtils.enhanceDataset ⟨some "GENERATED", none, none⟩).displayStatus =
      some "NEEDS_METADATA" :=
  C10_legacy_status_mismatch ⟨none, none, none⟩ "GENERATED"
    (by decide) (by decide) (by decide) (by decide)

/-- Helper: when the model call throws, the body of the outer try of
generateMetadata always propagates some thrown error (either the TypeError
from preview construction or the model error itself). -/
lemma generateMetadataCore_const_error (data : List JsonVal) (cols : List String)
    (lang : String) (jsonParse : String → Option JsonVal) (e : String) :
    ∃ err, generateMetadataCore data cols lang (fun _ => Except.error e) jsonParse =
      Except.error err := by
  unfold generateMetadataCore
  rcases buildSample data with e1 | sample
  · exact ⟨e1, rfl⟩
  · dsimp only
    rcases buildPreview sample cols with e2 | pv
    · exact ⟨e2, rfl⟩
    · exact ⟨e, rfl⟩

/-- Helper: when the cleaned model text parses to a non-null JSON value whose
tags member is missing or not an array, a successful run of the try body
returns a suggestion whose tags were coerced to the empty list. -/
lemma generateMetadataCore_tags_empty (data : List JsonVal) (cols : List String)
    (lang : String) (jsonParse : String → Option JsonVal) (text : String)
    (m : JsonVal) (s : GeneratedSuggestion)
    (hm : jsonParse (jsTrim (stripFences text.toList).asString) = some m)
    (hnull : m ≠ JsonVal.null)
    (htags : ∀ xs, jsProp m "tags" ≠ some (JsonVal.arr xs))
    (hc : generateMetadataCore data cols lang (fun _ => Except.ok text) jsonParse =
      Except.ok s) :
    s.tags = [] := by
  unfold generateMetadataCore at hc
  rcases hbs : buildSample data with e1 | sample
  · rw [hbs] at hc; cases hc
  · rw [hbs] at hc
    dsimp only at hc
    rcases hbp : buildPreview sample cols with e2 | pv
    · rw [hbp] at hc; cases hc
    · rw [hbp] at hc
      dsimp only at hc
      rw [hm] at hc
      cases m with
      | null => exact absurd rfl hnull
      | bool b => cases hc; rfl
      | num n => cases hc; rfl
      | str t => cases hc; rfl
      | arr xs => cases hc; rfl
      | obj fields =>
        cases hc
        show (match jsProp (JsonVal.obj fields) "tags" with
          | some (JsonVal.arr xs) => xs
          | _ => []) = []
        rcases hpt : jsProp (JsonVal.obj fields) "tags" with _ | v
        · rfl
        · cases v with
          | arr xs => exact absurd hpt (htags xs)
          | null => rfl
          | bool b => rfl
          | num n => rfl
          | str t => rfl
          | obj f2 => rfl

/-- C7: generateMetadata never throws for any input - any data rows
(including none), column names, language, model behaviour and JSON-parse
behaviour - and always resolves to a suggestion record carrying exactly the
four keys title, description, tags, category (fixed by the result
structure); when the model call throws, the result is the zero-value
suggestion; and when the parsed response carries a missing or non-array tags
value, tags is coerced to the empty list. -/
theorem C7_suggest_total (data : List JsonVal) (cols : List String) (lang : String)
    (model : String → Except String String) (jsonParse : String → Option JsonVal)
    (text e : String) (m : JsonVal)
    (hm : jsonParse (jsTrim (stripFences text.toList).asString) = some m)
    (hnull : m ≠ JsonVal.null)
    (htags : ∀ xs, jsProp m "tags" ≠ some (JsonVal.arr xs)) :
    (∃ s, generateMetadata data cols lang model jsonParse = Except.ok s) ∧
    generateMetadata data cols lang (fun _ => Except.error e) jsonParse =
      Except.ok emptySuggestion ∧
    (∃ s, generateMetadata data cols lang (fun _ => Except.ok text) jsonParse =
      Except.ok s ∧ s.tags = []) := by
  refine ⟨?_, ?_, ?_⟩
  · cases h : generateMetadataCore data cols lang model jsonParse with
    | ok s => exact ⟨s, by simp [generateMetadata, h]⟩
    | error err => exact ⟨emptySuggestion, by simp [generateMetadata, h]⟩
  · obtain ⟨err, herr⟩ := generateMetadataCore_const_error data cols lang jsonParse e
    simp [generateMetadata, herr]
  · cases hc : generateMetadataCore data cols lang (fun _ => Except.ok text) jsonParse with
    | error err => exact ⟨emptySuggestion, by simp [generateMetadata, hc], rfl⟩
    | ok s =>
      exact ⟨s, by simp [generateMetadata, hc],
        generateMetadataCore_tags_empty data cols lang jsonParse text m s hm hnull htags hc⟩

/-- Witness for C7: the theorem applied at concrete empty inputs, a throwing
model and a parse oracle returning an empty object. -/
theorem C7_witness :
    generateMetadata [] [] "en" (fun _ => Except.error "boom")
      (fun _ => some (JsonVal.obj [])) = Except.ok emptySuggestion :=
  (C7_suggest_total [] [] "en" (fun _ => Except.error "boom")
    (fun _ => some (JsonVal.obj [])) "x" "boom" (JsonVal.obj [])
    rfl (fun h => JsonVal.noConfusion h) (fun _ h => Option.noConfusion h)).2.1

/-- An Excel sheet with a header row, the data rows 1 and 3, and a blank row
between them: range counting sees three data rows while the blank-row filter
drops the middle one from the sample. -/
def blankRowSheet : Workbook :=
  ⟨[[[some "h"], [some "1"], [none], [some "3"]]]⟩

/-- C8 counterexample: the claimed equation sampleData.length =
min(10, rowCount) fails on both parse strategies.  For the CSV file with
header a,b and one data row, the bounded-prefix parser reports the estimated
rowCount 2 (file size divided by the observed average line length) while
sampling 1 row; and for the Excel sheet whose data rows are 1, a blank row,
and 3, the parser counts rowCount 3 from the range end while the blank row
is dropped from the sample, giving sampleData.length 2. -/
theorem C8_counterexample :
    (parseCSVEfficiently ⟨"a,b\n1,2\n"⟩).error = none ∧
    (parseCSVEfficiently ⟨"a,b\n1,2\n"⟩).columnNames.length = 2 ∧
    (parseCSVEfficiently ⟨"a,b\n1,2\n"⟩).sampleData.length = 1 ∧
    (parseCSVEfficiently ⟨"a,b\n1,2\n"⟩).rowCount = 2 ∧
    (parseCSVEfficiently ⟨"a,b\n1,2\n"⟩).sampleData.length ≠
      min 10 (parseCSVEfficiently ⟨"a,b\n1,2\n"⟩).rowCount ∧
    (parseExcel blankRowSheet).error = none ∧
    (parseExcel blankRowSheet).rowCount = 3 ∧
    (parseExcel blankRowSheet).sampleData.length = 2 ∧
    (parseExcel blankRowSheet).sampleData.length ≠
      min 10 (parseExcel blankRowSheet).rowCount := by
  decide

/-- C8 (amended): for an Excel sheet with a non-empty header row and at least
one data row, ingestion reports no error, rowCount equal to the data-row
count and one column name per header cell, and sampleData.length =
min(10, number of non-blank rows among the first min(11, rowCount) data
rows) - which never exceeds min(10, rowCount) and equals it exactly when no
sampled data row is blank; for a CSV chunk with a header line and at least
one data line, ingestion reports no error, rowCount at least 1, one column
name per header cell, and sampleData.length = min(10, number of data lines
in the parsed chunk), always at most 10 - the reported CSV rowCount is an
estimate that can exceed the number of sampled rows.  So the claimed
equation with min(10, rowCount) fails in general on both strategies. -/
theorem C8_amended_ingestion_shape
    (hdr : List (Option String)) (dataRows : List (List (Option String)))
    (file : JsFile)
    (hhdr : hdr ≠ [])
    (hdata : dataRows ≠ [])
    (hcsv : 2 ≤ (csvRows file).length)
    (hsplit : (splitOnChar ',' ((csvRows file).headD "").toList).length ≠ 0) :
    (parseExcel ⟨[hdr :: dataRows]⟩).error = none ∧
    (parseExcel ⟨[hdr :: dataRows]⟩).rowCount = dataRows.length ∧
    (parseExcel ⟨[hdr :: dataRows]⟩).columnNames.length = hdr.length ∧
    (parseExcel ⟨[hdr :: dataRows]⟩).sampleData.length =
      min 10 ((dataRows.take (min 11 dataRows.length)).filter
        (fun r => !rowIsBlank r)).length ∧
    (parseExcel ⟨[hdr :: dataRows]⟩).sampleData.length ≤
      min 10 (parseExcel ⟨[hdr :: dataRows]⟩).rowCount ∧
    ((∀ r ∈ dataRows.take (min 11 dataRows.length), rowIsBlank r = false) →
      (parseExcel ⟨[hdr :: dataRows]⟩).sampleData.length =
        min 10 (parseExcel ⟨[hdr :: dataRows]⟩).rowCount) ∧
    (parseCSVEfficiently file).error = none ∧
    1 ≤ (parseCSVEfficiently file).rowCount ∧
    (parseCSVEfficiently file).columnNames.length =
      (splitOnChar ',' ((csvRows file).headD "").toList).length ∧
    (parseCSVEfficiently file).sampleData.length = min 10 ((csvRows file).length - 1) ∧
    (parseCSVEfficiently file).sampleData.length ≤ 10 := by
  have hhdr0 : ¬(hdr.length = 0) := by simpa [List.length_eq_zero] using hhdr
  have hn : ¬(dataRows.length = 0) := by simpa [List.length_eq_zero] using hdata
  have hex : parseExcel ⟨[hdr :: dataRows]⟩ =
      { rowCount := dataRows.length,
        columnNames := hdr.map (fun h => jsTrim (h.getD "")),
        sampleData := (((dataRows.take (min 11 dataRows.length)).filter
            (fun r => !rowIsBlank r)).map
          (fun r => (hdr.map (fun h => jsTrim (h.getD ""))).enum.map
            (fun p => (p.2, (r.get? p.1).join)))).take 10,
        error := none } := by
    unfold parseExcel
    simp only [List.head?_cons]
    rw [if_neg hhdr0]
    simp only [List.length_cons, Nat.add_sub_cancel]
    rw [if_neg hn]
    simp only [List.drop_succ_cons, List.drop_zero]
  have hflen : ((dataRows.take (min 11 dataRows.length)).filter
      (fun r => !rowIsBlank r)).length ≤ min 11 dataRows.length := by
    calc ((dataRows.take (min 11 dataRows.length)).filter
        (fun r => !rowIsBlank r)).length
        ≤ (dataRows.take (min 11 dataRows.length)).length :=
          List.length_filter_le _ _
      _ = min (min 11 dataRows.length) dataRows.length := List.length_take _ _
      _ ≤ min 11 dataRows.length := by omega
  have hc2 : ¬((csvRows file).length < 2) := by omega
  have hsplit' : ¬(((splitOnChar ',' ((csvRows file).headD "").toList).map
      (fun h => stripEdgeQuotes (jsTrim h.asString))).length = 0) := by
    simpa [List.length_map] using hsplit
  have hcsvEq : parseCSVEfficiently file =
      { rowCount := max
          (file.size * ((csvRows file).drop 1).length /
            (((csvRows file).drop 1).map String.length).sum)
          ((csvRows file).drop 1).length,
        columnNames := (splitOnChar ',' ((csvRows file).headD "").toList).map
          (fun h => stripEdgeQuotes (jsTrim h.asString)),
        sampleData := (((csvRows file).drop 1).take 10).map (fun row =>
          ((splitOnChar ',' ((csvRows file).headD "").toList).map
            (fun h => stripEdgeQuotes (jsTrim h.asString))).enum.map
            (fun p => (p.2, (parseCSVRowSimple row).get? p.1))),
        error := none } := by
    unfold parseCSVEfficiently
    rw [if_neg hc2]
    rw [if_neg hsplit']
  have hd1 : ((csvRows file).drop 1).length = (csvRows file).length - 1 :=
    List.length_drop 1 (csvRows file)
  refine ⟨?_, ?_, ?_, ?_, ?_, ?_, ?_, ?_, ?_, ?_, ?_⟩
  · rw [hex]
  · rw [hex]
  · rw [hex]; simp [List.length_map]
  · rw [hex]; simp only [List.length_take, List.length_map]
  · rw [hex]
    simp only [List.length_take, List.length_map]
    omega
  · intro hb
    have hfil : ((dataRows.take (min 11 dataRows.length)).filter
        (fun r => !rowIsBlank r)) = dataRows.take (min 11 dataRows.length) :=
      List.filter_eq_self.mpr (fun a ha => by simp [hb a ha])
    rw [hex]
    simp only [hfil, List.length_take, List.length_map]
    omega
  · rw [hcsvEq]
  · rw [hcsvEq]
    have h1 : 1 ≤ ((csvRows file).drop 1).length := by omega
    exact le_trans h1 (le_max_right _ _)
  · rw [hcsvEq]; simp [List.length_map]
  · rw [hcsvEq]
    simp only [List.length_map, List.length_take, List.length_drop]
  · rw [hcsvEq]
    simp only [List.length_map, List.length_take, List.length_drop]
    omega

/-- Witness for C8: the amended theorem applied at a concrete two-data-row
CSV file and a concrete blank-free one-data-row Excel sheet, where the
min(10, rowCount) equation does hold. -/
theorem C8_witness :
    (parseCSVEfficiently ⟨"h1,h2\n1,2\n3,4\n"⟩).error = none ∧
    (parseExcel ⟨[[[some "h1", some "h2"], [some "1", some "2"]]]⟩).sampleData.length =
      min 10 (parseExcel ⟨[[[some "h1", some "h2"], [some "1", some "2"]]]⟩).rowCount := by
  have h := C8_amended_ingestion_shape [some "h1", some "h2"] [[some "1", some "2"]]
    ⟨"h1,h2\n1,2\n3,4\n"⟩ (by decide) (by decide) (by decide) (by decide)
  exact ⟨h.2.2.2.2.2.2.1, h.2.2.2.2.2.1 (by decide)⟩

/-- C9 counterexample: an Excel sheet with the single header cell a and zero
data rows yields the descriptive error together with the populated
columnNames list, so a non-empty error is combined with a partially populated
summary, refuting the claimed mutual exclusivity. -/
theorem C9_counterexample :
    (parseExcel ⟨[[[some "a"]]]⟩).error = some "File contains headers but no data rows" ∧
    (parseExcel ⟨[[[some "a"]]]⟩).columnNames = ["a"] := by
  decide

/-- C9 (amended): ingesting a file with a header but zero data rows returns a
descriptive non-empty error in both parsers; the CSV parser keeps the summary
empty alongside its error, but the Excel parser returns the parsed non-empty
columnNames alongside its error, so error and partial success are not
mutually exclusive in general. -/
theorem C9_amended_zero_rows_error (file : JsFile) (hdr : List (Option String))
    (hcsv : (csvRows file).length < 2) (hhdr : hdr ≠ []) :
    (parseCSVEfficiently file).error = some "Not enough rows in CSV file" ∧
    (parseCSVEfficiently file).columnNames = [] ∧
    (parseExcel ⟨[[hdr]]⟩).error = some "File contains headers but no data rows" ∧
    (parseExcel ⟨[[hdr]]⟩).columnNames.length = hdr.length ∧
    (parseExcel ⟨[[hdr]]⟩).columnNames ≠ [] := by
  have hhdr0 : ¬(hdr.length = 0) := by simpa [List.length_eq_zero] using hhdr
  have hcsvEq : parseCSVEfficiently file =
      { rowCount := 0, columnNames := [], sampleData := [],
        error := some "Not enough rows in CSV file" } := by
    unfold parseCSVEfficiently
    rw [if_pos hcsv]
  have hex : parseExcel ⟨[[hdr]]⟩ =
      { rowCount := 0, columnNames := hdr.map (fun h => jsTrim (h.getD "")),
        sampleData := [], error := some "File contains headers but no data rows" } := by
    unfold parseExcel
    simp only [List.head?_cons]
    rw [if_neg hhdr0]
    simp only [List.length_cons, List.length_nil]
    rfl
  refine ⟨?_, ?_, ?_, ?_, ?_⟩
  · rw [hcsvEq]
  · rw [hcsvEq]
  · rw [hex]
  · rw [hex]; simp [List.length_map]
  · rw [hex]; simpa [List.map_eq_nil_iff] using hhdr

/-- Witness for C9: the amended theorem applied at a concrete header-only CSV
file and a concrete header-only Excel sheet. -/
theorem C9_witness :
    (parseCSVEfficiently ⟨"a,b\n"⟩).error = some "Not enough rows in CSV file" ∧
    (parseExcel ⟨[[[some "x", none]]]⟩).columnNames ≠ [] := by
  have h := C9_amended_zero_rows_error ⟨"a,b\n"⟩ [some "x", none] (by decide) (by decide)
  exact ⟨h.1, h.2.2.2.2⟩
